import Mathlib

/-
Verification of the health-check orchestration engine (TypeScript source:
`src/services/health-check-orchestrator.ts`, `src/checkers/http.ts`,
`src/checkers/system.ts`, `src/types.ts`) against its natural-language
specification.

Modelling conventions:
- JavaScript numbers are modelled as exact rationals (ℚ); integer quantities
  (durations in milliseconds, counters, timestamps) as ℕ.
- Batteries marks the arithmetic on `Rat` (`Rat.add`, `Rat.mul`, `Rat.sub`,
  `Rat.inv`) `@[irreducible]`, which blocks kernel evaluation by `decide`.
  The embedding therefore uses the kernel-computable wrappers `qAdd`, `qSub`,
  `qMul`, `qDiv` below, built directly on `Rat.divInt`.  The bridge lemmas
  `qAdd_eq`, `qSub_eq`, `qMul_eq`, `qDiv_eq` prove them equal to the standard
  field operations, so theorem statements can be read either way.
  `qDiv` agrees with JavaScript division except at a zero divisor (where the
  source never divides: divisors are positive counters or the constant 100).
- Asynchronous effects (timers, promise scheduling, wall-clock reads, OS
  probes) are modelled by explicit environment records supplying, for each
  attempt, its outcome and its elapsed wall-clock time.
-/

set_option maxRecDepth 100000

/-- Kernel-computable addition on ℚ (see header comment). -/
def qAdd (a b : ℚ) : ℚ := Rat.divInt (a.num * b.den + b.num * a.den) (a.den * b.den)

/-- Kernel-computable subtraction on ℚ. -/
def qSub (a b : ℚ) : ℚ := Rat.divInt (a.num * b.den - b.num * a.den) (a.den * b.den)

/-- Kernel-computable multiplication on ℚ. -/
def qMul (a b : ℚ) : ℚ := Rat.divInt (a.num * b.num) (a.den * b.den)

/-- Kernel-computable division on ℚ (yields 0 for a zero divisor, as `(/)` does). -/
def qDiv (a b : ℚ) : ℚ := Rat.divInt (a.num * b.den) (a.den * b.num)

/-- `Math.round(q * 100) / 100`, the 2-decimal rounding used throughout the
orchestrator.  For the non-negative inputs arising here, JavaScript
`Math.round(x)` is `⌊x + 1/2⌋`. -/
def round2 (q : ℚ) : ℚ := qDiv (((qAdd (qMul q 100) (Rat.divInt 1 2)).floor : ℤ) : ℚ) 100

/-- `HealthStatus` enum from `src/types.ts`. -/
inductive HealthStatus where
  | healthy
  | unhealthy
  | degraded
  | unknown
deriving DecidableEq, Repr

/-- `HealthCheckType` enum from `src/types.ts`. -/
inductive HealthCheckType where
  | http
  | database
  | system
  | custom
deriving DecidableEq, Repr

/-- `HealthCheckConfig` from `src/types.ts` (the fields the orchestrator and
the retry machinery consume; `tags` and the checker-specific payload are
carried separately where needed). -/
structure HealthCheckConfig where
  id : String
  name : String
  type : HealthCheckType
  enabled : Bool
  interval : Nat
  timeout : Nat
  retries : Nat
deriving DecidableEq, Repr

/-- `HealthCheckResult` from `src/types.ts`.  The free-form `metadata` map is
modelled only for the system checker (which is the sole consumer a claim
depends on); optional fields are `Option`s. -/
structure HealthCheckResult where
  id : String
  name : String
  type : HealthCheckType
  status : HealthStatus
  timestamp : Nat
  duration : Nat
  message : Option String
  error : Option String
  retryCount : Option Nat
deriving DecidableEq, Repr

/-- `HealthCheckMetrics` from `src/types.ts`. -/
structure HealthCheckMetrics where
  totalExecutions : Nat
  successfulExecutions : Nat
  failedExecutions : Nat
  averageResponseTime : ℚ
  lastExecutionTime : Nat
  uptime : ℚ
deriving DecidableEq, Repr

/-- `HealthCheckOptions` from `src/types.ts`: optional per-call overrides. -/
structure HealthCheckOptions where
  timeout : Option Nat
  retries : Option Nat
  retryDelay : Option Nat
deriving DecidableEq, Repr

/-- `HealthSummary` from `src/types.ts`. -/
structure HealthSummary where
  status : HealthStatus
  timestamp : Nat
  totalChecks : Nat
  healthyChecks : Nat
  unhealthyChecks : Nat
  degradedChecks : Nat
  unknownChecks : Nat
  checks : List HealthCheckResult
deriving DecidableEq, Repr

/-- JavaScript `a || b` on numbers restricted to ℕ: `0` is falsy.
Models the `x || y` chains of `src/checkers/http.ts` lines 24-26. -/
def jsOrNat (a b : Nat) : Nat := if a = 0 then b else a

/-- JavaScript `a?.f || b`: an absent value (`undefined`) and `0` both fall
through to `b`. -/
def jsOptOr (a : Option Nat) (b : Nat) : Nat :=
  match a with
  | none => b
  | some v => jsOrNat v b

/-- `options?.timeout || config.timeout || 5000` (`http.ts` line 24). -/
def resolveTimeout (options : Option HealthCheckOptions) (config : HealthCheckConfig) : Nat :=
  jsOptOr (options.bind (fun o => o.timeout)) (jsOrNat config.timeout 5000)

/-- `options?.retries || config.retries || 0` (`http.ts` line 25). -/
def resolveRetries (options : Option HealthCheckOptions) (config : HealthCheckConfig) : Nat :=
  jsOptOr (options.bind (fun o => o.retries)) (jsOrNat config.retries 0)

/-- `options?.retryDelay || 1000` (`http.ts` line 26).  Note the config is not
consulted at all: `HealthCheckConfig` has no retryDelay field. -/
def resolveRetryDelay (options : Option HealthCheckOptions) : Nat :=
  jsOptOr (options.bind (fun o => o.retryDelay)) 1000

/-- What a successful `performHttpCheck` resolves with: a status (healthy, or
degraded past 80 percent of the timeout) and a message. -/
structure HttpAttemptSuccess where
  status : HealthStatus
  message : String
deriving DecidableEq, Repr

/-- Environment for one `HttpHealthChecker.check` run: for each attempt index,
whether `performHttpCheck` resolves or rejects, and how many wall-clock
milliseconds that attempt consumes. -/
structure AttemptEnv where
  outcome : Nat → Except String HttpAttemptSuccess
  elapsed : Nat → Nat

/-- JavaScript truthiness guard `lastError && { error: lastError }`: an empty
string is falsy, so it contributes no error field. -/
def jsTruthyStr (s : Option String) : Option String :=
  match s with
  | none => none
  | some v => if v = "" then none else some v

/-- The observable outcome of `HttpHealthChecker.check`, plus `attemptsMade`,
an instrumentation counter for the number of `performHttpCheck` invocations
(not a field of the source record). -/
structure HttpLoopResult where
  status : HealthStatus
  duration : Nat
  message : Option String
  error : Option String
  retryCount : Nat
  attemptsMade : Nat
deriving DecidableEq, Repr

/-- The retry loop of `HttpHealthChecker.check` (`http.ts` lines 31-76).
`remaining` is the number of loop iterations left (`maxRetries + 1` at entry),
so the loop guard `attempt <= maxRetries` becomes `remaining > 0` and the
delay guard `attempt < maxRetries` becomes `remaining > 1` after consuming the
current iteration.  `elapsed` accumulates `Date.now() - startTime`. -/
def httpCheckLoop (env : AttemptEnv) (retryDelay : Nat) :
    Nat → Nat → Nat → Option String → Nat → Nat → HttpLoopResult
  | _attempt, 0, elapsed, lastError, retryCount, made =>
    { status := HealthStatus.unhealthy
      duration := elapsed
      message := none
      error := jsTruthyStr lastError
      retryCount := retryCount
      attemptsMade := made }
  | attempt, remaining + 1, elapsed, _lastError, _retryCount, made =>
    match env.outcome attempt with
    | Except.ok s =>
      { status := s.status
        duration := elapsed + env.elapsed attempt
        message := some s.message
        error := none
        retryCount := attempt
        attemptsMade := made + 1 }
    | Except.error e =>
      httpCheckLoop env retryDelay (attempt + 1) remaining
        (elapsed + env.elapsed attempt + (if remaining > 0 then retryDelay else 0))
        (some e) attempt (made + 1)

/-- `HttpHealthChecker.check`: resolve the effective retry parameters, then run
the attempt loop from attempt 0. -/
def httpCheck (env : AttemptEnv) (config : HealthCheckConfig)
    (options : Option HealthCheckOptions) : HttpLoopResult :=
  httpCheckLoop env (resolveRetryDelay options) 0 (resolveRetries options config + 1) 0 none 0 0

/-- `result.status === HealthStatus.HEALTHY || result.status === HealthStatus.DEGRADED`
(`health-check-orchestrator.ts` line 228): healthy and degraded both count as
successful executions. -/
def isSuccessStatus (s : HealthStatus) : Bool :=
  s == HealthStatus.healthy || s == HealthStatus.degraded

/-- The metrics record created at registration
(`health-check-orchestrator.ts` lines 37-44); `now` models `new Date()`. -/
def initialMetrics (now : Nat) : HealthCheckMetrics :=
  { totalExecutions := 0
    successfulExecutions := 0
    failedExecutions := 0
    averageResponseTime := 0
    lastExecutionTime := now
    uptime := 100 }

/-- `updateMetrics` (`health-check-orchestrator.ts` lines 219-243): bump the
counters, fold the new duration into the running mean with 2-decimal rounding,
and recompute the uptime percentage with 2-decimal rounding. -/
def updateMetrics (metrics : HealthCheckMetrics) (result : HealthCheckResult) : HealthCheckMetrics :=
  let totalExecutions := metrics.totalExecutions + 1
  let successfulExecutions :=
    if isSuccessStatus result.status then metrics.successfulExecutions + 1
    else metrics.successfulExecutions
  let failedExecutions :=
    if isSuccessStatus result.status then metrics.failedExecutions
    else metrics.failedExecutions + 1
  let newAvg :=
    qDiv (qAdd (qMul metrics.averageResponseTime (qSub ((totalExecutions : Nat) : ℚ) 1))
        ((result.duration : Nat) : ℚ))
      ((totalExecutions : Nat) : ℚ)
  { totalExecutions := totalExecutions
    successfulExecutions := successfulExecutions
    failedExecutions := failedExecutions
    averageResponseTime := round2 newAvg
    lastExecutionTime := result.timestamp
    uptime := round2 (qMul (qDiv ((successfulExecutions : Nat) : ℚ) ((totalExecutions : Nat) : ℚ)) 100) }

/-- The running-mean recurrence `newAvg = (oldAvg * (n-1) + duration) / n`
with 2-decimal rounding applied after every update, exactly as `updateMetrics`
performs it; `n` is the number of durations folded in so far. -/
def runningAvgAux (avg : ℚ) (n : Nat) : List Nat → ℚ
  | [] => avg
  | d :: ds =>
    runningAvgAux
      (round2 (qDiv (qAdd (qMul avg (qSub ((n + 1 : Nat) : ℚ) 1)) ((d : Nat) : ℚ)) ((n + 1 : Nat) : ℚ)))
      (n + 1) ds

/-- The per-step-rounded running mean of a duration sequence, started from the
initial metrics (mean 0 over 0 executions). -/
def runningAvg (ds : List Nat) : ℚ := runningAvgAux 0 0 ds

/-- `storeResult` (`health-check-orchestrator.ts` lines 207-217): append, then
`splice(0, length - 100)` whenever more than 100 results are held. -/
def storeResult (results : List HealthCheckResult) (result : HealthCheckResult) : List HealthCheckResult :=
  let appended := results ++ [result]
  if appended.length > 100 then appended.drop (appended.length - 100) else appended

/-- Insert-or-replace on an association list: JavaScript
`this.registry[config.id] = config` and `Map.prototype.set`. -/
def alSet {α : Type} (k : String) (v : α) : List (String × α) → List (String × α)
  | [] => [(k, v)]
  | (a, b) :: rest => if a = k then (k, v) :: rest else (a, b) :: alSet k v rest

/-- Key removal on an association list: JavaScript `delete obj[k]` and
`Map.prototype.delete` (both silently succeed when the key is absent). -/
def alDelete {α : Type} (k : String) (m : List (String × α)) : List (String × α) :=
  m.filter (fun p => p.1 != k)

/-- The orchestrator's private state (`health-check-orchestrator.ts` lines
17-21): registry, per-id result history, per-id metrics, and the set of ids
with an active interval timer (the timer handles themselves carry no further
observable state). -/
structure OrchestratorState where
  registry : List (String × HealthCheckConfig)
  results : List (String × List HealthCheckResult)
  metrics : List (String × HealthCheckMetrics)
  intervals : List String
deriving DecidableEq, Repr

/-- The state holding nothing, as built by the constructor. -/
def emptyState : OrchestratorState :=
  { registry := [], results := [], metrics := [], intervals := [] }

/-- `schedulePeriodicCheck` (`health-check-orchestrator.ts` lines 188-205) as
far as observable here: the id ends up with exactly one active timer. -/
def scheduleInterval (id : String) (intervals : List String) : List String :=
  if id ∈ intervals then intervals else intervals ++ [id]

/-- `registerCheck` (`health-check-orchestrator.ts` lines 33-50): store the
config (overwriting any previous entry for the id), reset the metrics to the
initial record, and schedule the periodic timer when `enabled && interval > 0`.
The stored result history is not touched.  `now` models `new Date()`. -/
def registerCheck (now : Nat) (config : HealthCheckConfig) (s : OrchestratorState) : OrchestratorState :=
  let s1 : OrchestratorState :=
    { s with
      registry := alSet config.id config s.registry
      metrics := alSet config.id (initialMetrics now) s.metrics }
  if config.enabled ∧ config.interval > 0 then
    { s1 with intervals := scheduleInterval config.id s1.intervals }
  else s1

/-- `unregisterCheck` (`health-check-orchestrator.ts` lines 52-63): delete the
registry entry, the result history, the metrics, and the timer.  Every one of
these deletions is a silent no-op when the id holds nothing; the method has no
failure path. -/
def unregisterCheck (id : String) (s : OrchestratorState) : OrchestratorState :=
  { registry := alDelete id s.registry
    results := alDelete id s.results
    metrics := alDelete id s.metrics
    intervals := s.intervals.filter (fun i => i != id) }

/-- The error kind named by the specification for operations on unknown ids. -/
inductive OrchestratorErr where
  | notFound
deriving DecidableEq, Repr

/-- Follows the specification text for `unregister(id)` rather than the
source, for comparison with `unregisterCheck`: per the spec the call fails
with NotFound when the id is unknown, and otherwise drops timer, config,
history, and metrics. -/
def unregisterSpecced (id : String) (s : OrchestratorState) :
    Except OrchestratorErr OrchestratorState :=
  match s.registry.lookup id with
  | none => Except.error OrchestratorErr.notFound
  | some _ => Except.ok (unregisterCheck id s)

/-- `getCheckStatus` (`health-check-orchestrator.ts` lines 159-166): the most
recent stored result, or none when nothing is stored; no execution happens. -/
def getCheckStatus (id : String) (s : OrchestratorState) : Option HealthCheckResult :=
  match s.results.lookup id with
  | none => none
  | some results => if results.length = 0 then none else results.getLast?

/-- One entry of the `Promise.allSettled` array inside `executeAllChecks`. -/
inductive SettledResult where
  | fulfilled (value : HealthCheckResult)
  | rejected (reason : String)
deriving DecidableEq, Repr

/-- The synthetic unhealthy result built for a rejected execution
(`health-check-orchestrator.ts` lines 122-130). -/
def failedResult (timestamp : Nat) (config : HealthCheckConfig) (reason : String) : HealthCheckResult :=
  { id := config.id
    name := config.name
    type := config.type
    status := HealthStatus.unhealthy
    timestamp := timestamp
    duration := 0
    message := none
    error := some ("Failed to execute check: " ++ reason)
    retryCount := none }

/-- The result that one settled entry contributes to the summary list. -/
def settlePair (timestamp : Nat) (p : HealthCheckConfig × SettledResult) : HealthCheckResult :=
  match p.2 with
  | SettledResult.fulfilled r => r
  | SettledResult.rejected reason => failedResult timestamp p.1 reason

/-- The four per-status counters of `executeAllChecks`. -/
structure BatchCounts where
  healthyCount : Nat
  unhealthyCount : Nat
  degradedCount : Nat
  unknownCount : Nat
deriving DecidableEq, Repr

/-- The `switch (checkResult.status)` of `executeAllChecks` lines 105-117;
the `default` branch is exactly the `unknown` case since `HealthStatus` has
four values. -/
def tallyStatus (c : BatchCounts) (s : HealthStatus) : BatchCounts :=
  match s with
  | HealthStatus.healthy => { c with healthyCount := c.healthyCount + 1 }
  | HealthStatus.unhealthy => { c with unhealthyCount := c.unhealthyCount + 1 }
  | HealthStatus.degraded => { c with degradedCount := c.degradedCount + 1 }
  | HealthStatus.unknown => { c with unknownCount := c.unknownCount + 1 }

/-- The body of the `results.forEach` of `executeAllChecks` (lines 100-135):
a fulfilled execution contributes its result and bumps its status counter; a
rejected one contributes the synthetic unhealthy result and bumps the
unhealthy counter. -/
def settleStep (timestamp : Nat) (acc : List HealthCheckResult × BatchCounts)
    (p : HealthCheckConfig × SettledResult) : List HealthCheckResult × BatchCounts :=
  match p.2 with
  | SettledResult.fulfilled r => (acc.1 ++ [r], tallyStatus acc.2 r.status)
  | SettledResult.rejected reason =>
    (acc.1 ++ [failedResult timestamp p.1 reason],
     { acc.2 with unhealthyCount := acc.2.unhealthyCount + 1 })

/-- The overall-status cascade of `executeAllChecks` (lines 137-145). -/
def overallStatusOf (c : BatchCounts) : HealthStatus :=
  if c.unhealthyCount > 0 then HealthStatus.unhealthy
  else if c.degradedCount > 0 then HealthStatus.degraded
  else if c.unknownCount > 0 ∧ c.healthyCount = 0 then HealthStatus.unknown
  else HealthStatus.healthy

/-- `executeAllChecks` (`health-check-orchestrator.ts` lines 87-157) given the
settled outcomes of the enabled configs, in order (`Promise.allSettled`
preserves both length and order, so entry `i` belongs to config `i`). -/
def executeAllChecks (timestamp : Nat)
    (settled : List (HealthCheckConfig × SettledResult)) : HealthSummary :=
  let acc := settled.foldl (settleStep timestamp) ([], ⟨0, 0, 0, 0⟩)
  { status := overallStatusOf acc.2
    timestamp := timestamp
    totalChecks := acc.1.length
    healthyChecks := acc.2.healthyCount
    unhealthyChecks := acc.2.unhealthyCount
    degradedChecks := acc.2.degradedCount
    unknownChecks := acc.2.unknownCount
    checks := acc.1 }

/-- The `SystemCheck` sub-check descriptor from `src/types.ts`: resource kind,
threshold, optional path for disk checks. -/
inductive SystemCheckKind where
  | memory
  | disk
  | cpu
deriving DecidableEq, Repr

/-- One entry of `SystemHealthCheckConfig.checks`. -/
structure SystemCheck where
  type : SystemCheckKind
  threshold : ℚ
  path : Option String
deriving DecidableEq, Repr

/-- The record each sub-check of `SystemHealthChecker` produces
(`system.ts`): kind tag, classified status, message, measured metric value,
the threshold it was compared against, and the unit.  The numeric
interpolation inside the message strings is not modelled. -/
structure SubCheckResult where
  type : String
  status : HealthStatus
  message : String
  value : ℚ
  threshold : ℚ
  unit : String
deriving DecidableEq, Repr

/-- Environment snapshot for one `SystemHealthChecker.check` run: the OS
readings (`os.totalmem()`, `os.freemem()`, `os.loadavg()[0] ?? 0`,
`os.cpus().length`) and whether `fs.stat` on the disk path succeeds with a
directory. -/
structure SystemEnv where
  totalmem : ℚ
  freemem : ℚ
  loadavg1 : ℚ
  cpuCount : Nat
  diskStatOk : Bool
deriving DecidableEq, Repr

/-- `((totalMemory - freeMemory) / totalMemory) * 100` from
`checkMemoryUsage`. -/
def memUsagePercent (env : SystemEnv) : ℚ :=
  qMul (qDiv (qSub env.totalmem env.freemem) env.totalmem) 100

/-- `(oneMinLoad / cpuCount) * 100` from `checkCpuUsage`. -/
def cpuLoadPercent (env : SystemEnv) : ℚ :=
  qMul (qDiv env.loadavg1 ((env.cpuCount : Nat) : ℚ)) 100

/-- The classification ladder shared by the three sub-checks: unhealthy when
the metric exceeds the threshold, degraded when it exceeds 80 percent of the
threshold, else healthy.  (JavaScript `0.8` is the binary float nearest 0.8;
it is modelled as the exact rational 4/5.) -/
def classifyMetric (value threshold : ℚ) : HealthStatus :=
  if value > threshold then HealthStatus.unhealthy
  else if value > qMul threshold (Rat.divInt 4 5) then HealthStatus.degraded
  else HealthStatus.healthy

/-- `performSystemCheck` (`system.ts`): dispatch on the sub-check kind.  The
disk sub-check is the stub of the source: when `fs.stat` succeeds the measured
usage is the placeholder 0, classified through the same ladder; when it fails
the sub-check reports unhealthy with value 0. -/
def performSystemCheck (env : SystemEnv) (check : SystemCheck) : SubCheckResult :=
  match check.type with
  | SystemCheckKind.memory =>
    { type := "memory"
      status := classifyMetric (memUsagePercent env) check.threshold
      message := "Memory usage"
      value := memUsagePercent env
      threshold := check.threshold
      unit := "%" }
  | SystemCheckKind.disk =>
    if env.diskStatOk then
      { type := "disk"
        status := classifyMetric 0 check.threshold
        message := "Disk usage"
        value := 0
        threshold := check.threshold
        unit := "%" }
    else
      { type := "disk"
        status := HealthStatus.unhealthy
        message := "Failed to check disk usage"
        value := 0
        threshold := check.threshold
        unit := "%" }
  | SystemCheckKind.cpu =>
    { type := "cpu"
      status := classifyMetric (cpuLoadPercent env) check.threshold
      message := "CPU load"
      value := cpuLoadPercent env
      threshold := check.threshold
      unit := "%" }

/-- The overall-status computation of `SystemHealthChecker.check`
(`system.ts` lines 499-506): collect the non-healthy sub-checks; if any exist,
unhealthy when one of them is unhealthy and degraded otherwise. -/
def systemOverall (checkResults : List SubCheckResult) : HealthStatus :=
  let failedChecks := checkResults.filter (fun r => r.status != HealthStatus.healthy)
  if failedChecks.length > 0 then
    if failedChecks.any (fun r => r.status == HealthStatus.unhealthy) then HealthStatus.unhealthy
    else HealthStatus.degraded
  else HealthStatus.healthy

/-- The observable outcome of `SystemHealthChecker.check`: overall status, the
joined message, and `metadata.checks` (the full sub-check records, in
sub-check order).  The `systemInfo` metadata entry and the timing fields are
not consumed by any claim and are not modelled. -/
structure SystemCheckOutcome where
  status : HealthStatus
  message : String
  metadataChecks : List SubCheckResult
deriving DecidableEq, Repr

/-- `SystemHealthChecker.check` (`system.ts` lines 485-538) on the success
path: run every configured sub-check (in order, as `Promise.all` preserves
order), aggregate the overall status, and expose all sub-check records in the
metadata. -/
def systemCheck (env : SystemEnv) (checks : List SystemCheck) : SystemCheckOutcome :=
  let checkResults := checks.map (performSystemCheck env)
  { status := systemOverall checkResults
    message := String.intercalate "; " (checkResults.map (fun r => r.message))
    metadataChecks := checkResults }

/-- Severity order on statuses used to express the worst sub-check status
(the specification's wording); sub-checks only ever produce the first three. -/
def statusSeverity : HealthStatus → Nat
  | HealthStatus.healthy => 0
  | HealthStatus.degraded => 1
  | HealthStatus.unhealthy => 2
  | HealthStatus.unknown => 3

/-- The more severe of two statuses. -/
def maxStatus (a b : HealthStatus) : HealthStatus :=
  if statusSeverity a < statusSeverity b then b else a

/-- The worst status of a list (healthy when empty), per the specification's
worst-sub-check-status wording; for comparison with `systemOverall`. -/
def worstStatus (l : List HealthStatus) : HealthStatus :=
  l.foldr maxStatus HealthStatus.healthy

/-- A sample HTTP check config used by concrete witnesses. -/
def sampleHttpConfig : HealthCheckConfig :=
  { id := "api"
    name := "API Check"
    type := HealthCheckType.http
    enabled := true
    interval := 0
    timeout := 5000
    retries := 2 }

/-- A sample result with a given status, used by concrete witnesses. -/
def mkStatusResult (s : HealthStatus) : HealthCheckResult :=
  { id := "api"
    name := "API Check"
    type := HealthCheckType.http
    status := s
    timestamp := 0
    duration := 5
    message := none
    error := none
    retryCount := none }

/-- A sample healthy result with a given duration, used by concrete
witnesses and counterexamples. -/
def mkDurationResult (d : Nat) : HealthCheckResult :=
  { id := "api"
    name := "API Check"
    type := HealthCheckType.http
    status := HealthStatus.healthy
    timestamp := 0
    duration := d
    message := none
    error := none
    retryCount := none }

/-- A state with the sample config registered under id `api`, one stored
result, and metrics, for concrete witnesses. -/
def sampleRegisteredState : OrchestratorState :=
  { registry := [("api", sampleHttpConfig)]
    results := [("api", [mkStatusResult HealthStatus.healthy])]
    metrics := [("api", initialMetrics 0)]
    intervals := [] }

/-- 150 identical results, for the history-trimming witness. -/
def witnessResults150 : List HealthCheckResult := List.replicate 150 (mkDurationResult 1)

/-- Durations on which per-step rounding of the running mean drifts away from
the rounding of the true mean. -/
def badDurations : List Nat := [13, 8, 2, 13, 8, 2, 1]

/-- The corresponding healthy results. -/
def badResults : List HealthCheckResult := badDurations.map mkDurationResult

/-- An environment whose checker attempt always rejects, taking 5 ms. -/
def failEnv : AttemptEnv :=
  { outcome := fun _ => Except.error "boom"
    elapsed := fun _ => 5 }

/-- An environment failing on attempts 0 and 1 and succeeding on attempt 2. -/
def recoverEnv : AttemptEnv :=
  { outcome := fun i =>
      if i < 2 then Except.error "boom"
      else Except.ok { status := HealthStatus.healthy, message := "HTTP check successful" }
    elapsed := fun _ => 5 }

/-- OS snapshot with 25 percent memory use and 25 percent CPU load. -/
def sampleSystemEnv : SystemEnv :=
  { totalmem := 100
    freemem := 75
    loadavg1 := Rat.divInt 1 4
    cpuCount := 1
    diskStatOk := true }

/-- Memory, CPU and disk sub-checks with thresholds 80 / 90 / 85. -/
def sampleSystemChecks : List SystemCheck :=
  [ { type := SystemCheckKind.memory, threshold := 80, path := none },
    { type := SystemCheckKind.cpu, threshold := 90, path := none },
    { type := SystemCheckKind.disk, threshold := 85, path := none } ]

theorem qAdd_eq (a b : ℚ) : qAdd a b = a + b := by
  have hda : ((a.den : ℚ)) ≠ 0 := by exact_mod_cast a.den_nz
  have hdb : ((b.den : ℚ)) ≠ 0 := by exact_mod_cast b.den_nz
  have ha : (a.num : ℚ) = a * a.den := (div_eq_iff hda).mp (Rat.num_div_den a)
  have hb : (b.num : ℚ) = b * b.den := (div_eq_iff hdb).mp (Rat.num_div_den b)
  rw [qAdd, Rat.divInt_eq_div]
  push_cast
  rw [div_eq_iff (mul_ne_zero hda hdb), ha, hb]
  ring

theorem qSub_eq (a b : ℚ) : qSub a b = a - b := by
  have hda : ((a.den : ℚ)) ≠ 0 := by exact_mod_cast a.den_nz
  have hdb : ((b.den : ℚ)) ≠ 0 := by exact_mod_cast b.den_nz
  have ha : (a.num : ℚ) = a * a.den := (div_eq_iff hda).mp (Rat.num_div_den a)
  have hb : (b.num : ℚ) = b * b.den := (div_eq_iff hdb).mp (Rat.num_div_den b)
  rw [qSub, Rat.divInt_eq_div]
  push_cast
  rw [div_eq_iff (mul_ne_zero hda hdb), ha, hb]
  ring

theorem qMul_eq (a b : ℚ) : qMul a b = a * b := by
  have hda : ((a.den : ℚ)) ≠ 0 := by exact_mod_cast a.den_nz
  have hdb : ((b.den : ℚ)) ≠ 0 := by exact_mod_cast b.den_nz
  have ha : (a.num : ℚ) = a * a.den := (div_eq_iff hda).mp (Rat.num_div_den a)
  have hb : (b.num : ℚ) = b * b.den := (div_eq_iff hdb).mp (Rat.num_div_den b)
  rw [qMul, Rat.divInt_eq_div]
  push_cast
  rw [div_eq_iff (mul_ne_zero hda hdb), ha, hb]
  ring

theorem qDiv_eq (a b : ℚ) : qDiv a b = a / b := by
  rcases eq_or_ne b 0 with hb | hb
  · subst hb
    simp [qDiv]
  · have hda : ((a.den : ℚ)) ≠ 0 := by exact_mod_cast a.den_nz
    have hdb : ((b.den : ℚ)) ≠ 0 := by exact_mod_cast b.den_nz
    have hnb : ((b.num : ℚ)) ≠ 0 := by exact_mod_cast Rat.num_ne_zero.mpr hb
    have ha : (a.num : ℚ) = a * a.den := (div_eq_iff hda).mp (Rat.num_div_den a)
    have hb2 : (b.num : ℚ) = b * b.den := (div_eq_iff hdb).mp (Rat.num_div_den b)
    rw [qDiv, Rat.divInt_eq_div]
    push_cast
    rw [div_eq_div_iff (mul_ne_zero hda hnb) hb, ha, hb2]
    ring

theorem lookup_alSet {α : Type} (k : String) (v : α) (m : List (String × α)) :
    (alSet k v m).lookup k = some v := by
  induction m with
  | nil => simp [alSet, List.lookup]
  | cons p rest ih =>
    obtain ⟨a, b⟩ := p
    by_cases h : a = k
    · subst h
      simp [alSet, List.lookup]
    · have h2 : (k == a) = false := beq_eq_false_iff_ne.mpr (fun e => h e.symm)
      simp [alSet, h, List.lookup, h2, ih]

theorem lookup_alDelete {α : Type} (k : String) (m : List (String × α)) :
    (alDelete k m).lookup k = none := by
  induction m with
  | nil => simp [alDelete]
  | cons p rest ih =>
    obtain ⟨a, b⟩ := p
    by_cases h : a = k
    · subst h
      simpa [alDelete, List.filter_cons] using ih
    · have h2 : (k == a) = false := beq_eq_false_iff_ne.mpr (fun e => h e.symm)
      simp only [alDelete, List.filter_cons] at ih ⊢
      simp [h, List.lookup, h2, ih]

theorem alDelete_eq_self {α : Type} (k : String) (m : List (String × α))
    (h : m.lookup k = none) : alDelete k m = m := by
  induction m with
  | nil => simp [alDelete]
  | cons p rest ih =>
    obtain ⟨a, b⟩ := p
    by_cases ha : k = a
    · subst ha
      simp [List.lookup] at h
    · have h2 : (k == a) = false := beq_eq_false_iff_ne.mpr ha
      simp only [List.lookup, h2] at h
      simp only [alDelete, List.filter_cons] at ih ⊢
      have h3 : (a != k) = true := by
        simp [bne_iff_ne]
        exact fun e => ha e.symm
      simp [h3, ih h]

theorem filter_ne_of_not_mem (id : String) (l : List String) (h : id ∉ l) :
    l.filter (fun i => i != id) = l := by
  apply List.filter_eq_self.mpr
  intro a ha
  simp [bne_iff_ne]
  exact fun e => h (e ▸ ha)

theorem not_mem_filter_ne (id : String) (l : List String) :
    id ∉ l.filter (fun i => i != id) := by
  intro h
  have := List.of_mem_filter h
  simp [bne_iff_ne] at this

theorem storeResult_length_le (acc : List HealthCheckResult) (r : HealthCheckResult)
    (h : acc.length ≤ 100) : (storeResult acc r).length ≤ 100 := by
  simp only [storeResult]
  split
  · next h2 =>
    simp only [List.length_drop, List.length_append, List.length_singleton, List.length_cons, List.length_nil] at h2 ⊢
    omega
  · next h2 =>
    simp only [List.length_append, List.length_singleton, List.length_cons, List.length_nil] at h2 ⊢
    omega

theorem storeResult_getLast (acc : List HealthCheckResult) (r : HealthCheckResult) :
    (storeResult acc r).getLast? = some r := by
  simp only [storeResult]
  split
  · next h =>
    rw [List.drop_append_eq_append_drop]
    have h0 : (acc ++ [r]).length - 100 - acc.length = 0 := by
      simp only [List.length_append, List.length_singleton, List.length_cons, List.length_nil]
      omega
    rw [h0]
    simp only [List.drop_zero]
    exact List.getLast?_concat _
  · exact List.getLast?_concat _

theorem foldl_storeResult (rs : List HealthCheckResult) :
    ∀ acc : List HealthCheckResult, acc.length ≤ 100 →
      rs.foldl storeResult acc = (acc ++ rs).drop (acc.length + rs.length - 100) := by
  induction rs with
  | nil =>
    intro acc h
    simp only [List.foldl_nil, List.append_nil, List.length_nil, Nat.add_zero]
    have h0 : acc.length - 100 = 0 := by omega
    rw [h0, List.drop_zero]
  | cons r rest ih =>
    intro acc h
    rw [List.foldl_cons, ih (storeResult acc r) (storeResult_length_le acc r h)]
    by_cases hlen : (acc ++ [r]).length > 100
    · have h100 : acc.length = 100 := by
        simp only [List.length_append, List.length_singleton, List.length_cons, List.length_nil] at hlen
        omega
      have hsr : storeResult acc r = (acc ++ [r]).drop 1 := by
        simp only [storeResult, if_pos hlen]
        congr 1
        simp only [List.length_append, List.length_singleton, List.length_cons, List.length_nil]
        omega
      rw [hsr]
      have hlen1 : ((acc ++ [r]).drop 1).length = 100 := by
        simp only [List.length_drop, List.length_append, List.length_singleton, List.length_cons, List.length_nil]
        omega
      rw [hlen1]
      have hidx : 100 + rest.length - 100 = rest.length := by omega
      rw [hidx]
      have hidx3 : acc.length + (r :: rest).length - 100 = rest.length + 1 := by
        simp only [List.length_cons]
        omega
      rw [hidx3]
      have hsplit : acc ++ r :: rest = (acc ++ [r]) ++ rest := by simp
      rw [hsplit]
      conv_lhs => rw [List.drop_append_eq_append_drop]
      conv_rhs => rw [List.drop_append_eq_append_drop]
      rw [List.drop_drop]
      have hcomm : 1 + rest.length = rest.length + 1 := Nat.add_comm 1 rest.length
      have hidx4 : rest.length + 1 - (acc ++ [r]).length = rest.length - 100 := by
        simp only [List.length_append, List.length_singleton, List.length_cons, List.length_nil]
        omega
      rw [hcomm, hidx4, hlen1]
    · have hsr : storeResult acc r = acc ++ [r] := by
        simp only [storeResult, if_neg hlen]
      rw [hsr, List.append_assoc]
      have e : [r] ++ rest = r :: rest := rfl
      rw [e]
      have hidx5 : (acc ++ [r]).length + rest.length - 100 =
          acc.length + (r :: rest).length - 100 := by
        simp only [List.length_append, List.length_singleton, List.length_cons,
          List.length_nil]
        omega
      rw [hidx5]

theorem foldl_updateMetrics_total (rs : List HealthCheckResult) :
    ∀ m : HealthCheckMetrics,
      (rs.foldl updateMetrics m).totalExecutions = m.totalExecutions + rs.length := by
  induction rs with
  | nil => intro m; simp
  | cons r rest ih =>
    intro m
    rw [List.foldl_cons, ih]
    simp only [updateMetrics, List.length_cons]
    omega

theorem foldl_updateMetrics_succ (rs : List HealthCheckResult) :
    ∀ m : HealthCheckMetrics,
      (rs.foldl updateMetrics m).successfulExecutions =
        m.successfulExecutions + rs.countP (fun r => isSuccessStatus r.status) := by
  induction rs with
  | nil => intro m; simp
  | cons r rest ih =>
    intro m
    rw [List.foldl_cons, ih]
    cases hb : isSuccessStatus r.status <;>
      simp [updateMetrics, hb, List.countP_cons] <;> omega

theorem foldl_updateMetrics_avg (rs : List HealthCheckResult) :
    ∀ m : HealthCheckMetrics,
      (rs.foldl updateMetrics m).averageResponseTime =
        runningAvgAux m.averageResponseTime m.totalExecutions (rs.map (fun r => r.duration)) := by
  induction rs with
  | nil => intro m; simp [runningAvgAux]
  | cons r rest ih =>
    intro m
    rw [List.foldl_cons, ih, List.map_cons]
    simp only [runningAvgAux, updateMetrics]

theorem foldl_updateMetrics_uptime (rest : List HealthCheckResult) :
    ∀ (r : HealthCheckResult) (m : HealthCheckMetrics),
      ((r :: rest).foldl updateMetrics m).uptime =
        round2 (qMul (qDiv
          (((m.successfulExecutions + (r :: rest).countP (fun x => isSuccessStatus x.status) : Nat)) : ℚ)
          (((m.totalExecutions + (r :: rest).length : Nat)) : ℚ)) 100) := by
  induction rest with
  | nil =>
    intro r m
    cases hb : isSuccessStatus r.status <;>
      simp [updateMetrics, hb, List.countP_cons]
  | cons x xs ih =>
    intro r m
    rw [List.foldl_cons, ih x (updateMetrics m r)]
    have e1 : (updateMetrics m r).successfulExecutions +
        (x :: xs).countP (fun y => isSuccessStatus y.status) =
        m.successfulExecutions + (r :: x :: xs).countP (fun y => isSuccessStatus y.status) := by
      cases hb : isSuccessStatus r.status <;>
        simp [updateMetrics, hb, List.countP_cons] <;> omega
    have e2 : (updateMetrics m r).totalExecutions + (x :: xs).length =
        m.totalExecutions + (r :: x :: xs).length := by
      simp only [updateMetrics, List.length_cons]
      omega
    rw [e1, e2]

theorem foldl_settleStep_checks (t : Nat) (ps : List (HealthCheckConfig × SettledResult)) :
    ∀ acc : List HealthCheckResult × BatchCounts,
      (ps.foldl (settleStep t) acc).1 = acc.1 ++ ps.map (settlePair t) := by
  induction ps with
  | nil => intro acc; simp
  | cons p rest ih =>
    intro acc
    rw [List.foldl_cons, ih]
    obtain ⟨cfg, sr⟩ := p
    cases sr <;> simp [settleStep, settlePair]

theorem foldl_settleStep_healthy (t : Nat) (ps : List (HealthCheckConfig × SettledResult)) :
    ∀ acc : List HealthCheckResult × BatchCounts,
      (ps.foldl (settleStep t) acc).2.healthyCount =
        acc.2.healthyCount +
          (ps.map (settlePair t)).countP (fun r => r.status == HealthStatus.healthy) := by
  induction ps with
  | nil => intro acc; simp
  | cons p rest ih =>
    intro acc
    rw [List.foldl_cons, ih]
    obtain ⟨cfg, sr⟩ := p
    cases sr with
    | fulfilled r =>
      cases hs : r.status <;>
        (simp [settleStep, settlePair, tallyStatus, hs, List.countP_cons]
         try omega)
    | rejected reason =>
      simp [settleStep, settlePair, failedResult, List.countP_cons]
      try omega

theorem foldl_settleStep_unhealthy (t : Nat) (ps : List (HealthCheckConfig × SettledResult)) :
    ∀ acc : List HealthCheckResult × BatchCounts,
      (ps.foldl (settleStep t) acc).2.unhealthyCount =
        acc.2.unhealthyCount +
          (ps.map (settlePair t)).countP (fun r => r.status == HealthStatus.unhealthy) := by
  induction ps with
  | nil => intro acc; simp
  | cons p rest ih =>
    intro acc
    rw [List.foldl_cons, ih]
    obtain ⟨cfg, sr⟩ := p
    cases sr with
    | fulfilled r =>
      cases hs : r.status <;>
        (simp [settleStep, settlePair, tallyStatus, hs, List.countP_cons]
         try omega)
    | rejected reason =>
      simp [settleStep, settlePair, failedResult, List.countP_cons]
      try omega

theorem foldl_settleStep_degraded (t : Nat) (ps : List (HealthCheckConfig × SettledResult)) :
    ∀ acc : List HealthCheckResult × BatchCounts,
      (ps.foldl (settleStep t) acc).2.degradedCount =
        acc.2.degradedCount +
          (ps.map (settlePair t)).countP (fun r => r.status == HealthStatus.degraded) := by
  induction ps with
  | nil => intro acc; simp
  | cons p rest ih =>
    intro acc
    rw [List.foldl_cons, ih]
    obtain ⟨cfg, sr⟩ := p
    cases sr with
    | fulfilled r =>
      cases hs : r.status <;>
        (simp [settleStep, settlePair, tallyStatus, hs, List.countP_cons]
         try omega)
    | rejected reason =>
      simp [settleStep, settlePair, failedResult, List.countP_cons]
      try omega

theorem foldl_settleStep_unknown (t : Nat) (ps : List (HealthCheckConfig × SettledResult)) :
    ∀ acc : List HealthCheckResult × BatchCounts,
      (ps.foldl (settleStep t) acc).2.unknownCount =
        acc.2.unknownCount +
          (ps.map (settlePair t)).countP (fun r => r.status == HealthStatus.unknown) := by
  induction ps with
  | nil => intro acc; simp
  | cons p rest ih =>
    intro acc
    rw [List.foldl_cons, ih]
    obtain ⟨cfg, sr⟩ := p
    cases sr with
    | fulfilled r =>
      cases hs : r.status <;>
        (simp [settleStep, settlePair, tallyStatus, hs, List.countP_cons]
         try omega)
    | rejected reason =>
      simp [settleStep, settlePair, failedResult, List.countP_cons]
      try omega

theorem countP_status_partition (rs : List HealthCheckResult) :
    rs.countP (fun r => r.status == HealthStatus.healthy) +
      rs.countP (fun r => r.status == HealthStatus.unhealthy) +
      rs.countP (fun r => r.status == HealthStatus.degraded) +
      rs.countP (fun r => r.status == HealthStatus.unknown) = rs.length := by
  induction rs with
  | nil => simp
  | cons r rest ih =>
    cases hs : r.status <;> simp [List.countP_cons, hs] <;> omega

theorem httpCheckLoop_exhaust (env : AttemptEnv) (retryDelay attempt elapsed : Nat)
    (lastError : Option String) (rc made : Nat) :
    httpCheckLoop env retryDelay attempt 0 elapsed lastError rc made =
      { status := HealthStatus.unhealthy
        duration := elapsed
        message := none
        error := jsTruthyStr lastError
        retryCount := rc
        attemptsMade := made } := by
  simp only [httpCheckLoop]

theorem httpCheckLoop_step_error (env : AttemptEnv) (retryDelay attempt remaining elapsed : Nat)
    (lastError : Option String) (rc made : Nat) (e : String)
    (h : env.outcome attempt = Except.error e) :
    httpCheckLoop env retryDelay attempt (remaining + 1) elapsed lastError rc made =
      httpCheckLoop env retryDelay (attempt + 1) remaining
        (elapsed + env.elapsed attempt + (if remaining > 0 then retryDelay else 0))
        (some e) attempt (made + 1) := by
  conv_lhs => simp only [httpCheckLoop]
  rw [h]

theorem httpCheckLoop_step_ok (env : AttemptEnv) (retryDelay attempt remaining elapsed : Nat)
    (lastError : Option String) (rc made : Nat) (s : HttpAttemptSuccess)
    (h : env.outcome attempt = Except.ok s) :
    httpCheckLoop env retryDelay attempt (remaining + 1) elapsed lastError rc made =
      { status := s.status
        duration := elapsed + env.elapsed attempt
        message := some s.message
        error := none
        retryCount := attempt
        attemptsMade := made + 1 } := by
  conv_lhs => simp only [httpCheckLoop]
  rw [h]

theorem httpCheckLoop_allFail (env : AttemptEnv) (msg : Nat → String) (retryDelay : Nat)
    (hfail : ∀ i, env.outcome i = Except.error (msg i)) :
    ∀ (remaining attempt elapsed : Nat) (lastError : Option String) (rc made : Nat),
      httpCheckLoop env retryDelay attempt (remaining + 1) elapsed lastError rc made =
        { status := HealthStatus.unhealthy
          duration := elapsed +
            (Finset.sum (Finset.range (remaining + 1)) (fun i => env.elapsed (attempt + i)) +
              remaining * retryDelay)
          message := none
          error := jsTruthyStr (some (msg (attempt + remaining)))
          retryCount := attempt + remaining
          attemptsMade := made + (remaining + 1) } := by
  intro remaining
  induction remaining with
  | zero =>
    intro attempt elapsed lastError rc made
    rw [httpCheckLoop_step_error env retryDelay attempt 0 elapsed lastError rc made
      (msg attempt) (hfail attempt)]
    rw [httpCheckLoop_exhaust]
    simp [Finset.sum_range_one]
  | succ n ih =>
    intro attempt elapsed lastError rc made
    rw [httpCheckLoop_step_error env retryDelay attempt (n + 1) elapsed lastError rc made
      (msg attempt) (hfail attempt)]
    rw [if_pos (Nat.succ_pos n)]
    rw [ih (attempt + 1) (elapsed + env.elapsed attempt + retryDelay) (some (msg attempt))
      attempt (made + 1)]
    have hs : Finset.sum (Finset.range (n + 1)) (fun i => env.elapsed (attempt + 1 + i)) =
        Finset.sum (Finset.range (n + 1)) (fun i => env.elapsed (attempt + (i + 1))) :=
      Finset.sum_congr rfl (fun i _ => by rw [show attempt + 1 + i = attempt + (i + 1) by omega])
    have hdur : elapsed + env.elapsed attempt + retryDelay +
        (Finset.sum (Finset.range (n + 1)) (fun i => env.elapsed (attempt + 1 + i)) +
          n * retryDelay) =
        elapsed + (Finset.sum (Finset.range (n + 1 + 1)) (fun i => env.elapsed (attempt + i)) +
          (n + 1) * retryDelay) := by
      rw [hs, Finset.sum_range_succ' (fun i => env.elapsed (attempt + i)) (n + 1), Nat.succ_mul]
      simp only [Nat.add_zero]
      omega
    have hshift : attempt + 1 + n = attempt + (n + 1) := by omega
    have hmade : made + 1 + (n + 1) = made + (n + 1 + 1) := by omega
    rw [hdur, hshift, hmade]

theorem httpCheckLoop_firstSuccess (env : AttemptEnv) (s : HttpAttemptSuccess) (retryDelay : Nat) :
    ∀ (k attempt remaining elapsed : Nat) (lastError : Option String) (rc made : Nat),
      (∀ i, i < k → ∃ e, env.outcome (attempt + i) = Except.error e) →
      env.outcome (attempt + k) = Except.ok s →
      k < remaining →
      httpCheckLoop env retryDelay attempt remaining elapsed lastError rc made =
        { status := s.status
          duration := elapsed +
            (Finset.sum (Finset.range (k + 1)) (fun i => env.elapsed (attempt + i)) +
              k * retryDelay)
          message := some s.message
          error := none
          retryCount := attempt + k
          attemptsMade := made + (k + 1) } := by
  intro k
  induction k with
  | zero =>
    intro attempt remaining elapsed lastError rc made hpre hk hlt
    obtain ⟨m, rfl⟩ : ∃ m, remaining = m + 1 := ⟨remaining - 1, by omega⟩
    rw [httpCheckLoop_step_ok env retryDelay attempt m elapsed lastError rc made s
      (by simpa using hk)]
    simp [Finset.sum_range_one]
  | succ n ih =>
    intro attempt remaining elapsed lastError rc made hpre hk hlt
    obtain ⟨m, rfl⟩ : ∃ m, remaining = m + 1 := ⟨remaining - 1, by omega⟩
    obtain ⟨e, he⟩ := hpre 0 (Nat.succ_pos n)
    rw [show attempt + 0 = attempt from rfl] at he
    rw [httpCheckLoop_step_error env retryDelay attempt m elapsed lastError rc made e he]
    have hm : 0 < m := by omega
    rw [if_pos hm]
    have hpre2 : ∀ i, i < n → ∃ e2, env.outcome (attempt + 1 + i) = Except.error e2 := by
      intro i hi
      obtain ⟨e2, he2⟩ := hpre (i + 1) (by omega)
      refine ⟨e2, ?_⟩
      rw [show attempt + 1 + i = attempt + (i + 1) by omega]
      exact he2
    have hk2 : env.outcome (attempt + 1 + n) = Except.ok s := by
      rw [show attempt + 1 + n = attempt + (n + 1) by omega]
      exact hk
    rw [ih (attempt + 1) m (elapsed + env.elapsed attempt + retryDelay) (some e) attempt
      (made + 1) hpre2 hk2 (by omega)]
    have hs : Finset.sum (Finset.range (n + 1)) (fun i => env.elapsed (attempt + 1 + i)) =
        Finset.sum (Finset.range (n + 1)) (fun i => env.elapsed (attempt + (i + 1))) :=
      Finset.sum_congr rfl (fun i _ => by rw [show attempt + 1 + i = attempt + (i + 1) by omega])
    have hdur : elapsed + env.elapsed attempt + retryDelay +
        (Finset.sum (Finset.range (n + 1)) (fun i => env.elapsed (attempt + 1 + i)) +
          n * retryDelay) =
        elapsed + (Finset.sum (Finset.range (n + 1 + 1)) (fun i => env.elapsed (attempt + i)) +
          (n + 1) * retryDelay) := by
      rw [hs, Finset.sum_range_succ' (fun i => env.elapsed (attempt + i)) (n + 1), Nat.succ_mul]
      simp only [Nat.add_zero]
      omega
    have hshift : attempt + 1 + n = attempt + (n + 1) := by omega
    have hmade : made + 1 + (n + 1) = made + (n + 1 + 1) := by omega
    rw [hdur, hshift, hmade]

theorem classifyMetric_ne_unknown (v t : ℚ) : classifyMetric v t ≠ HealthStatus.unknown := by
  unfold classifyMetric
  split_ifs <;> simp

theorem performSystemCheck_ne_unknown (env : SystemEnv) (c : SystemCheck) :
    (performSystemCheck env c).status ≠ HealthStatus.unknown := by
  cases hc : c.type <;> simp only [performSystemCheck, hc]
  · exact classifyMetric_ne_unknown _ _
  · by_cases hd : env.diskStatOk
    · simp only [if_pos hd]
      exact classifyMetric_ne_unknown _ _
    · simp [if_neg hd]
  · exact classifyMetric_ne_unknown _ _

theorem systemOverall_char (l : List SubCheckResult) :
    systemOverall l =
      if l.any (fun r => r.status == HealthStatus.unhealthy) then HealthStatus.unhealthy
      else if l.any (fun r => r.status != HealthStatus.healthy) then HealthStatus.degraded
      else HealthStatus.healthy := by
  simp only [systemOverall]
  by_cases h1 : l.any (fun r => r.status == HealthStatus.unhealthy) = true
  · obtain ⟨r, hr, hrs⟩ := List.any_eq_true.mp h1
    have hrs2 : r.status = HealthStatus.unhealthy := by simpa using hrs
    have hrmem : r ∈ l.filter (fun r => r.status != HealthStatus.healthy) :=
      List.mem_filter.mpr ⟨hr, by simp [hrs2]⟩
    have hflen : 0 < (l.filter (fun r => r.status != HealthStatus.healthy)).length :=
      List.length_pos.mpr (fun hnil => by rw [hnil] at hrmem; simp at hrmem)
    have hany : (l.filter (fun r => r.status != HealthStatus.healthy)).any
        (fun r => r.status == HealthStatus.unhealthy) = true :=
      List.any_eq_true.mpr ⟨r, hrmem, by simp [hrs2]⟩
    rw [if_pos hflen, if_pos hany, if_pos h1]
  · have hnone : ∀ x ∈ l, x.status ≠ HealthStatus.unhealthy := by
      intro x hx hxs
      exact h1 (List.any_eq_true.mpr ⟨x, hx, by simp [hxs]⟩)
    rw [if_neg h1]
    by_cases h2 : l.any (fun r => r.status != HealthStatus.healthy) = true
    · obtain ⟨r, hr, hrs⟩ := List.any_eq_true.mp h2
      have hrmem : r ∈ l.filter (fun r => r.status != HealthStatus.healthy) :=
        List.mem_filter.mpr ⟨hr, hrs⟩
      have hflen : 0 < (l.filter (fun r => r.status != HealthStatus.healthy)).length :=
        List.length_pos.mpr (fun hnil => by rw [hnil] at hrmem; simp at hrmem)
      have hany : (l.filter (fun r => r.status != HealthStatus.healthy)).any
          (fun r => r.status == HealthStatus.unhealthy) = false := by
        rw [List.any_eq_false]
        intro x hx
        have hxl := (List.mem_filter.mp hx).1
        simpa using hnone x hxl
      rw [if_pos hflen, if_pos h2, hany]
      simp
    · have hfnil : l.filter (fun r => r.status != HealthStatus.healthy) = [] := by
        rw [List.filter_eq_nil]
        intro a ha hstat
        exact h2 (List.any_eq_true.mpr ⟨a, ha, hstat⟩)
      rw [if_neg h2, hfnil]
      simp

theorem worstStatus_char (l : List HealthStatus) (h : ∀ x ∈ l, x ≠ HealthStatus.unknown) :
    worstStatus l =
      if l.any (fun x => x == HealthStatus.unhealthy) then HealthStatus.unhealthy
      else if l.any (fun x => x != HealthStatus.healthy) then HealthStatus.degraded
      else HealthStatus.healthy := by
  induction l with
  | nil => rfl
  | cons x xs ih =>
    have hx := h x (List.mem_cons_self x xs)
    have hxs : ∀ y ∈ xs, y ≠ HealthStatus.unknown :=
      fun y hy => h y (List.mem_cons_of_mem x hy)
    have hstep : worstStatus (x :: xs) = maxStatus x (worstStatus xs) := rfl
    rw [hstep, ih hxs]
    cases x with
    | unknown => exact absurd rfl hx
    | healthy =>
      by_cases ha : xs.any (fun y => y == HealthStatus.unhealthy) = true <;>
        by_cases hb : xs.any (fun y => y != HealthStatus.healthy) = true <;>
          simp [maxStatus, statusSeverity, List.any_cons, ha, hb]
    | degraded =>
      by_cases ha : xs.any (fun y => y == HealthStatus.unhealthy) = true <;>
        by_cases hb : xs.any (fun y => y != HealthStatus.healthy) = true <;>
          simp [maxStatus, statusSeverity, List.any_cons, ha, hb]
    | unhealthy =>
      by_cases ha : xs.any (fun y => y == HealthStatus.unhealthy) = true <;>
        by_cases hb : xs.any (fun y => y != HealthStatus.healthy) = true <;>
          simp [maxStatus, statusSeverity, List.any_cons, ha, hb]

/-- C6 (counterexample): the claim says an explicitly supplied per-call option
wins even when its value is 0, but the source resolves with JavaScript `||`,
so an explicit `retries: 0` falls back to the config value 2 instead of 0. -/
theorem C6_option_resolution_counterexample :
    resolveRetries (some { timeout := none, retries := some 0, retryDelay := none })
      sampleHttpConfig = 2 ∧ (2 : Nat) ≠ 0 := by
  constructor
  · decide
  · decide

/-- C6 (amended): effective timeout, retries and retryDelay prefer a nonzero
explicitly supplied per-call value over a nonzero config value over the hard
defaults 5000 ms / 0 retries / 1000 ms; a supplied 0 (and an absent value) is
falsy under `||` and falls through to the next layer, and retryDelay never
consults the config at all (the config carries no retryDelay field). -/
theorem C6_option_resolution_amended (o : HealthCheckOptions) (c : HealthCheckConfig) (v : Nat) :
    (o.timeout = some v → v ≠ 0 → resolveTimeout (some o) c = v) ∧
    ((o.timeout = none ∨ o.timeout = some 0) →
      resolveTimeout (some o) c = (if c.timeout = 0 then 5000 else c.timeout)) ∧
    (resolveTimeout none c = (if c.timeout = 0 then 5000 else c.timeout)) ∧
    (o.retries = some v → v ≠ 0 → resolveRetries (some o) c = v) ∧
    ((o.retries = none ∨ o.retries = some 0) → resolveRetries (some o) c = c.retries) ∧
    (resolveRetries none c = c.retries) ∧
    (o.retryDelay = some v → v ≠ 0 → resolveRetryDelay (some o) = v) ∧
    ((o.retryDelay = none ∨ o.retryDelay = some 0) → resolveRetryDelay (some o) = 1000) ∧
    (resolveRetryDelay none = 1000) := by
  refine ⟨?_, ?_, ?_, ?_, ?_, ?_, ?_, ?_, ?_⟩
  · intro h hv
    simp [resolveTimeout, jsOptOr, jsOrNat, h, hv]
  · rintro (h | h) <;> simp [resolveTimeout, jsOptOr, jsOrNat, h]
  · simp [resolveTimeout, jsOptOr, jsOrNat]
  · intro h hv
    simp [resolveRetries, jsOptOr, jsOrNat, h, hv]
  · rintro (h | h) <;> by_cases hc : c.retries = 0 <;>
      simp [resolveRetries, jsOptOr, jsOrNat, h, hc]
  · by_cases hc : c.retries = 0 <;> simp [resolveRetries, jsOptOr, jsOrNat, hc]
  · intro h hv
    simp [resolveRetryDelay, jsOptOr, jsOrNat, h, hv]
  · rintro (h | h) <;> simp [resolveRetryDelay, jsOptOr, jsOrNat, h]
  · simp [resolveRetryDelay, jsOptOr, jsOrNat]

theorem C6_option_resolution_amended_witness :
    resolveTimeout (some { timeout := some 7, retries := some 0, retryDelay := some 0 })
      sampleHttpConfig = 7 ∧
    resolveRetries (some { timeout := some 7, retries := some 0, retryDelay := some 0 })
      sampleHttpConfig = sampleHttpConfig.retries ∧
    resolveRetryDelay (some { timeout := some 7, retries := some 0, retryDelay := some 0 }) =
      1000 := by
  have t := C6_option_resolution_amended
    { timeout := some 7, retries := some 0, retryDelay := some 0 } sampleHttpConfig 7
  exact ⟨t.1 rfl (by decide), t.2.2.2.2.1 (Or.inr rfl), t.2.2.2.2.2.2.2.1 (Or.inr rfl)⟩

/-- C3 (counterexample): `unregisterCheck` of a never-registered id returns
the state unchanged and signals nothing (its JavaScript deletions are silent
no-ops and the method has no failure path), whereas the specification demands
a NotFound failure, as `unregisterSpecced` renders it. -/
theorem C3_unregister_silent_noop_counterexample :
    unregisterCheck "ghost" emptyState = emptyState ∧
    unregisterSpecced "ghost" emptyState = Except.error OrchestratorErr.notFound := by
  constructor
  · rfl
  · rfl

/-- C3 (amended): `unregister(id)` never fails; for an id holding nothing it
is a silent no-op (the state is returned unchanged), and for any state it
drops the config, the result history, the metrics, and the timer of `id`. -/
theorem C3_unregister_amended (id : String) (s : OrchestratorState) :
    ((s.registry.lookup id = none ∧ s.results.lookup id = none ∧
        s.metrics.lookup id = none ∧ id ∉ s.intervals) →
      unregisterCheck id s = s) ∧
    (unregisterCheck id s).registry.lookup id = none ∧
    (unregisterCheck id s).results.lookup id = none ∧
    (unregisterCheck id s).metrics.lookup id = none ∧
    id ∉ (unregisterCheck id s).intervals := by
  refine ⟨?_, lookup_alDelete id s.registry, lookup_alDelete id s.results,
    lookup_alDelete id s.metrics, not_mem_filter_ne id s.intervals⟩
  rintro ⟨h1, h2, h3, h4⟩
  simp only [unregisterCheck, alDelete_eq_self id _ h1, alDelete_eq_self id _ h2,
    alDelete_eq_self id _ h3, filter_ne_of_not_mem id _ h4]

theorem C3_unregister_amended_witness :
    unregisterCheck "ghost" emptyState = emptyState ∧
    (unregisterCheck "api" sampleRegisteredState).registry.lookup "api" = none := by
  have t1 := C3_unregister_amended "ghost" emptyState
  have t2 := C3_unregister_amended "api" sampleRegisteredState
  exact ⟨t1.1 ⟨rfl, rfl, rfl, by simp [emptyState]⟩, t2.2.1⟩

/-- C9: re-registering an already-registered id raises no duplicate-id error:
`registerCheck` is a total state update that overwrites the registry entry,
resets the metrics of the id to the initial record (totalExecutions 0,
uptime 100), and leaves the stored result histories of every check
untouched. -/
theorem C9_reregister (now : Nat) (c : HealthCheckConfig) (s : OrchestratorState)
    (h : (s.registry.lookup c.id).isSome) :
    (registerCheck now c s).registry.lookup c.id = some c ∧
    (registerCheck now c s).metrics.lookup c.id = some (initialMetrics now) ∧
    (registerCheck now c s).results = s.results ∧
    (initialMetrics now).totalExecutions = 0 ∧
    (initialMetrics now).uptime = 100 := by
  have hreg : (registerCheck now c s).registry = alSet c.id c s.registry := by
    simp only [registerCheck]
    split <;> rfl
  have hmet : (registerCheck now c s).metrics = alSet c.id (initialMetrics now) s.metrics := by
    simp only [registerCheck]
    split <;> rfl
  have hres : (registerCheck now c s).results = s.results := by
    simp only [registerCheck]
    split <;> rfl
  refine ⟨?_, ?_, hres, rfl, rfl⟩
  · rw [hreg]
    exact lookup_alSet c.id c s.registry
  · rw [hmet]
    exact lookup_alSet c.id (initialMetrics now) s.metrics

theorem C9_reregister_witness :
    (registerCheck 5 sampleHttpConfig sampleRegisteredState).registry.lookup "api" =
      some sampleHttpConfig ∧
    (registerCheck 5 sampleHttpConfig sampleRegisteredState).metrics.lookup "api" =
      some (initialMetrics 5) ∧
    (registerCheck 5 sampleHttpConfig sampleRegisteredState).results =
      sampleRegisteredState.results := by
  have t := C9_reregister 5 sampleHttpConfig sampleRegisteredState (by decide)
  exact ⟨t.1, t.2.1, t.2.2.1⟩

/-- C5: the stored history of a check never exceeds 100 entries; recording
appends the new result (which becomes the most recent) and evicts the oldest
entries beyond capacity, so 150 sequential recordings leave exactly the last
100 results in order; and `getCheckStatus` returns the most recent stored
result — it is a pure lookup, no execution — or none when nothing is
stored. -/
theorem C5_result_history :
    (∀ rs : List HealthCheckResult, rs.length = 150 →
      rs.foldl storeResult [] = rs.drop 50) ∧
    (∀ (acc : List HealthCheckResult) (r : HealthCheckResult),
      acc.length ≤ 100 → (storeResult acc r).length ≤ 100) ∧
    (∀ (acc : List HealthCheckResult) (r : HealthCheckResult),
      (storeResult acc r).getLast? = some r) ∧
    (∀ (id : String) (s : OrchestratorState),
      s.results.lookup id = none → getCheckStatus id s = none) ∧
    (∀ (id : String) (s : OrchestratorState) (rs : List HealthCheckResult),
      s.results.lookup id = some rs → getCheckStatus id s = rs.getLast?) := by
  refine ⟨?_, storeResult_length_le, storeResult_getLast, ?_, ?_⟩
  · intro rs h
    have hf := foldl_storeResult rs [] (by simp)
    simpa [h] using hf
  · intro id s h
    simp [getCheckStatus, h]
  · intro id s rs h
    simp only [getCheckStatus, h]
    by_cases hn : rs.length = 0
    · have he : rs = [] := List.length_eq_zero.mp hn
      simp [he]
    · simp [hn]

theorem C5_result_history_witness :
    witnessResults150.foldl storeResult [] = witnessResults150.drop 50 ∧
    (storeResult [] (mkDurationResult 1)).length ≤ 100 ∧
    (storeResult [] (mkDurationResult 1)).getLast? = some (mkDurationResult 1) ∧
    getCheckStatus "ghost" sampleRegisteredState = none ∧
    getCheckStatus "api" sampleRegisteredState =
      [mkStatusResult HealthStatus.healthy].getLast? := by
  refine ⟨C5_result_history.1 witnessResults150 (by simp [witnessResults150]),
    C5_result_history.2.1 [] (mkDurationResult 1) (by simp),
    C5_result_history.2.2.1 [] (mkDurationResult 1),
    C5_result_history.2.2.2.1 "ghost" sampleRegisteredState (by decide),
    C5_result_history.2.2.2.2 "api" sampleRegisteredState
      [mkStatusResult HealthStatus.healthy] (by decide)⟩

/-- C4 (counterexample): after 7 executions with durations 13, 8, 2, 13, 8,
2, 1, the stored `averageResponseTime` (per-step rounding) is 6.72, while
round2 of the arithmetic mean 47/7 is 6.71 — so `averageResponseTime` does
not equal the arithmetic mean rounded to 2 decimals. -/
theorem C4_metrics_rounding_counterexample :
    (badResults.foldl updateMetrics (initialMetrics 0)).averageResponseTime ≠
      round2 (qDiv (((badResults.map (fun r => r.duration)).sum : Nat) : ℚ)
        ((badResults.length : Nat) : ℚ)) := by decide

/-- C4 (amended): after N recorded executions of which S are successes
(healthy or degraded), `totalExecutions = N`, `successfulExecutions = S` and
`uptime = round2 (S / N × 100)` hold exactly as claimed, while
`averageResponseTime` equals the value of the per-step-rounded recurrence
`newAvg = round2 ((oldAvg * (n-1) + duration) / n)` over the recorded
durations — which the counterexample shows can differ from round2 of the
arithmetic mean. -/
theorem C4_metrics_amended (now : Nat) (rs : List HealthCheckResult) (h : rs ≠ []) :
    (rs.foldl updateMetrics (initialMetrics now)).totalExecutions = rs.length ∧
    (rs.foldl updateMetrics (initialMetrics now)).successfulExecutions =
      rs.countP (fun r => isSuccessStatus r.status) ∧
    (rs.foldl updateMetrics (initialMetrics now)).uptime =
      round2 (((rs.countP (fun r => isSuccessStatus r.status) : Nat) : ℚ) /
        ((rs.length : Nat) : ℚ) * 100) ∧
    (rs.foldl updateMetrics (initialMetrics now)).averageResponseTime =
      runningAvg (rs.map (fun r => r.duration)) := by
  obtain ⟨r, rest, rfl⟩ : ∃ r rest, rs = r :: rest := by
    cases rs with
    | nil => exact absurd rfl h
    | cons a b => exact ⟨a, b, rfl⟩
  refine ⟨?_, ?_, ?_, ?_⟩
  · simpa [initialMetrics] using foldl_updateMetrics_total (r :: rest) (initialMetrics now)
  · simpa [initialMetrics] using foldl_updateMetrics_succ (r :: rest) (initialMetrics now)
  · rw [foldl_updateMetrics_uptime rest r (initialMetrics now), qMul_eq, qDiv_eq]
    simp [initialMetrics]
  · rw [foldl_updateMetrics_avg (r :: rest) (initialMetrics now)]
    simp [initialMetrics, runningAvg]

theorem C4_metrics_amended_witness :
    (badResults.foldl updateMetrics (initialMetrics 0)).totalExecutions = badResults.length ∧
    (badResults.foldl updateMetrics (initialMetrics 0)).uptime =
      round2 (((badResults.countP (fun r => isSuccessStatus r.status) : Nat) : ℚ) /
        ((badResults.length : Nat) : ℚ) * 100) ∧
    (badResults.foldl updateMetrics (initialMetrics 0)).averageResponseTime =
      runningAvg (badResults.map (fun r => r.duration)) := by
  have t := C4_metrics_amended 0 badResults (by decide)
  exact ⟨t.1, t.2.2.1, t.2.2.2⟩

/-- C2: a check whose attempts all fail performs exactly `retries + 1` checker
invocations and returns an unhealthy result carrying the last captured error
message (provided it is a non-empty string — JavaScript truthiness drops an
empty one), `retryCount = retries`, and a duration spanning the whole attempt
sequence: the sum of the attempt times plus one retry delay (1000 ms on the
optionless orchestrator path) per retry. -/
theorem C2_retry_exhaustion (env : AttemptEnv) (msg : Nat → String)
    (config : HealthCheckConfig) (r : Nat)
    (hfail : ∀ i, env.outcome i = Except.error (msg i))
    (hr : config.retries = r) (hmsg : msg r ≠ "") :
    (httpCheck env config none).status = HealthStatus.unhealthy ∧
    (httpCheck env config none).attemptsMade = r + 1 ∧
    (httpCheck env config none).retryCount = r ∧
    (httpCheck env config none).error = some (msg r) ∧
    (httpCheck env config none).duration =
      Finset.sum (Finset.range (r + 1)) (fun i => env.elapsed i) + r * 1000 := by
  subst hr
  have hres : resolveRetries none config = config.retries := by
    by_cases h0 : config.retries = 0 <;> simp [resolveRetries, jsOptOr, jsOrNat, h0]
  have hdel : resolveRetryDelay none = 1000 := rfl
  unfold httpCheck
  rw [hres, hdel]
  rw [httpCheckLoop_allFail env msg 1000 hfail config.retries 0 0 none 0 0]
  refine ⟨rfl, by simp, by simp, ?_, ?_⟩
  · show jsTruthyStr (some (msg (0 + config.retries))) = some (msg config.retries)
    simp [jsTruthyStr, hmsg]
  · show 0 + (Finset.sum (Finset.range (config.retries + 1))
        (fun i => env.elapsed (0 + i)) + config.retries * 1000) =
      Finset.sum (Finset.range (config.retries + 1)) (fun i => env.elapsed i) +
        config.retries * 1000
    simp

theorem C2_retry_exhaustion_witness :
    (httpCheck failEnv sampleHttpConfig none).status = HealthStatus.unhealthy ∧
    (httpCheck failEnv sampleHttpConfig none).attemptsMade = 3 ∧
    (httpCheck failEnv sampleHttpConfig none).retryCount = 2 ∧
    (httpCheck failEnv sampleHttpConfig none).error = some "boom" ∧
    (httpCheck failEnv sampleHttpConfig none).duration = 2015 := by
  have t := C2_retry_exhaustion failEnv (fun _ => "boom") sampleHttpConfig 2
    (fun _ => rfl) rfl (by decide)
  refine ⟨t.1, t.2.1, t.2.2.1, t.2.2.2.1, ?_⟩
  rw [t.2.2.2.2]
  simp [failEnv, Finset.sum_range_succ]

/-- C7: when the checker first succeeds on attempt `k` (0-indexed, `k` within
the retry budget), the check returns immediately after that attempt —
exactly `k + 1` checker invocations — with `retryCount = k` and the status
and message of that successful attempt. -/
theorem C7_retry_success (env : AttemptEnv) (s : HttpAttemptSuccess)
    (config : HealthCheckConfig) (k : Nat)
    (hpre : ∀ i, i < k → ∃ e, env.outcome i = Except.error e)
    (hk : env.outcome k = Except.ok s)
    (hle : k ≤ config.retries) :
    (httpCheck env config none).status = s.status ∧
    (httpCheck env config none).message = some s.message ∧
    (httpCheck env config none).retryCount = k ∧
    (httpCheck env config none).attemptsMade = k + 1 := by
  have hres : resolveRetries none config = config.retries := by
    by_cases h0 : config.retries = 0 <;> simp [resolveRetries, jsOptOr, jsOrNat, h0]
  have hdel : resolveRetryDelay none = 1000 := rfl
  unfold httpCheck
  rw [hres, hdel]
  rw [httpCheckLoop_firstSuccess env s 1000 k 0 (config.retries + 1) 0 none 0 0
    (by simpa using hpre) (by simpa using hk) (by omega)]
  exact ⟨rfl, rfl, by simp, by simp⟩

theorem C7_retry_success_witness :
    (httpCheck recoverEnv sampleHttpConfig none).status = HealthStatus.healthy ∧
    (httpCheck recoverEnv sampleHttpConfig none).message = some "HTTP check successful" ∧
    (httpCheck recoverEnv sampleHttpConfig none).retryCount = 2 ∧
    (httpCheck recoverEnv sampleHttpConfig none).attemptsMade = 3 := by
  have t := C7_retry_success recoverEnv
    { status := HealthStatus.healthy, message := "HTTP check successful" }
    sampleHttpConfig 2
    (fun i hi => ⟨"boom", by simp [recoverEnv, hi]⟩)
    (by rfl) (by decide)
  exact ⟨t.1, t.2.1, t.2.2.1, t.2.2.2⟩

/-- C1: the overall status of an `executeAllChecks` summary is unhealthy when
some result is unhealthy; otherwise degraded when some result is degraded;
otherwise unknown when some result is unknown and none is healthy; otherwise
healthy — in particular a batch of one healthy and one unknown result is
healthy. -/
theorem C1_executeAll_overall_status (t : Nat)
    (settled : List (HealthCheckConfig × SettledResult)) :
    ((executeAllChecks t settled).status =
      (if ∃ r ∈ (executeAllChecks t settled).checks, r.status = HealthStatus.unhealthy then
        HealthStatus.unhealthy
      else if ∃ r ∈ (executeAllChecks t settled).checks, r.status = HealthStatus.degraded then
        HealthStatus.degraded
      else if (∃ r ∈ (executeAllChecks t settled).checks, r.status = HealthStatus.unknown) ∧
          ¬ ∃ r ∈ (executeAllChecks t settled).checks, r.status = HealthStatus.healthy then
        HealthStatus.unknown
      else HealthStatus.healthy)) ∧
    (executeAllChecks 0
      [(sampleHttpConfig, SettledResult.fulfilled (mkStatusResult HealthStatus.healthy)),
       (sampleHttpConfig, SettledResult.fulfilled (mkStatusResult HealthStatus.unknown))]).status =
      HealthStatus.healthy := by
  constructor
  · have h5 := foldl_settleStep_checks t settled ([], ⟨0, 0, 0, 0⟩)
    have hh := foldl_settleStep_healthy t settled ([], ⟨0, 0, 0, 0⟩)
    have hu := foldl_settleStep_unhealthy t settled ([], ⟨0, 0, 0, 0⟩)
    have hd := foldl_settleStep_degraded t settled ([], ⟨0, 0, 0, 0⟩)
    have hk := foldl_settleStep_unknown t settled ([], ⟨0, 0, 0, 0⟩)
    simp only [List.nil_append] at h5
    simp only [Nat.zero_add] at hh hu hd hk
    simp only [executeAllChecks, overallStatusOf]
    rw [hu, hd, hk, hh]
    simp only [h5]
    have e1 : (0 < (settled.map (settlePair t)).countP
          (fun r => r.status == HealthStatus.unhealthy)) ↔
        ∃ r ∈ settled.map (settlePair t), r.status = HealthStatus.unhealthy := by
      rw [List.countP_pos]
      simp
    have e2 : (0 < (settled.map (settlePair t)).countP
          (fun r => r.status == HealthStatus.degraded)) ↔
        ∃ r ∈ settled.map (settlePair t), r.status = HealthStatus.degraded := by
      rw [List.countP_pos]
      simp
    have e3 : (0 < (settled.map (settlePair t)).countP
          (fun r => r.status == HealthStatus.unknown)) ↔
        ∃ r ∈ settled.map (settlePair t), r.status = HealthStatus.unknown := by
      rw [List.countP_pos]
      simp
    have e4 : ((settled.map (settlePair t)).countP
          (fun r => r.status == HealthStatus.healthy) = 0) ↔
        ¬ ∃ r ∈ settled.map (settlePair t), r.status = HealthStatus.healthy := by
      rw [List.countP_eq_zero]
      simp
    rw [if_congr e1 rfl (if_congr e2 rfl (if_congr (and_congr e3 e4) rfl rfl))]
  · decide

/-- C10: every summary satisfies `totalChecks = checks.length` and
`totalChecks = healthyChecks + unhealthyChecks + degradedChecks +
unknownChecks`, each per-status count being the number of results of the
checks list with that status. -/
theorem C10_summary_counts (t : Nat)
    (settled : List (HealthCheckConfig × SettledResult)) :
    (executeAllChecks t settled).totalChecks = (executeAllChecks t settled).checks.length ∧
    (executeAllChecks t settled).totalChecks =
      (executeAllChecks t settled).healthyChecks +
        (executeAllChecks t settled).unhealthyChecks +
        (executeAllChecks t settled).degradedChecks +
        (executeAllChecks t settled).unknownChecks ∧
    (executeAllChecks t settled).healthyChecks =
      (executeAllChecks t settled).checks.countP (fun r => r.status == HealthStatus.healthy) ∧
    (executeAllChecks t settled).unhealthyChecks =
      (executeAllChecks t settled).checks.countP (fun r => r.status == HealthStatus.unhealthy) ∧
    (executeAllChecks t settled).degradedChecks =
      (executeAllChecks t settled).checks.countP (fun r => r.status == HealthStatus.degraded) ∧
    (executeAllChecks t settled).unknownChecks =
      (executeAllChecks t settled).checks.countP (fun r => r.status == HealthStatus.unknown) := by
  have h5 := foldl_settleStep_checks t settled ([], ⟨0, 0, 0, 0⟩)
  have hh := foldl_settleStep_healthy t settled ([], ⟨0, 0, 0, 0⟩)
  have hu := foldl_settleStep_unhealthy t settled ([], ⟨0, 0, 0, 0⟩)
  have hd := foldl_settleStep_degraded t settled ([], ⟨0, 0, 0, 0⟩)
  have hk := foldl_settleStep_unknown t settled ([], ⟨0, 0, 0, 0⟩)
  simp only [List.nil_append] at h5
  simp only [Nat.zero_add] at hh hu hd hk
  refine ⟨rfl, ?_, ?_, ?_, ?_, ?_⟩
  · simp only [executeAllChecks]
    rw [h5, hh, hu, hd, hk]
    exact (countP_status_partition (settled.map (settlePair t))).symm
  · simp only [executeAllChecks]
    rw [h5, hh]
  · simp only [executeAllChecks]
    rw [h5, hu]
  · simp only [executeAllChecks]
    rw [h5, hd]
  · simp only [executeAllChecks]
    rw [h5, hk]

/-- C8: on a system-resource check whose disk probe succeeds, every sub-check
computes a percentage-style metric and is classified unhealthy above the
threshold, degraded above 80 percent of it, else healthy; the overall status
is the worst sub-check status; and the result metadata carries every
sub-check record (including each metric value), in order. -/
theorem C8_system_resource (env : SystemEnv) (checks : List SystemCheck)
    (hdisk : env.diskStatOk = true) :
    (∀ c ∈ checks, (performSystemCheck env c).status =
      classifyMetric (performSystemCheck env c).value c.threshold) ∧
    (systemCheck env checks).status =
      worstStatus ((checks.map (performSystemCheck env)).map (fun r => r.status)) ∧
    (systemCheck env checks).metadataChecks = checks.map (performSystemCheck env) := by
  refine ⟨?_, ?_, rfl⟩
  · intro c _
    cases ht : c.type <;> simp [performSystemCheck, ht, hdisk]
  · have hno : ∀ x ∈ (checks.map (performSystemCheck env)).map (fun r => r.status),
        x ≠ HealthStatus.unknown := by
      intro x hx
      obtain ⟨r2, hr2, rfl⟩ := List.mem_map.mp hx
      obtain ⟨c, _, rfl⟩ := List.mem_map.mp hr2
      exact performSystemCheck_ne_unknown env c
    have hst : (systemCheck env checks).status =
        systemOverall (checks.map (performSystemCheck env)) := rfl
    rw [hst, systemOverall_char, worstStatus_char _ hno]
    simp [List.any_map, Function.comp]

theorem C8_system_resource_witness :
    (∀ c ∈ sampleSystemChecks, (performSystemCheck sampleSystemEnv c).status =
      classifyMetric (performSystemCheck sampleSystemEnv c).value c.threshold) ∧
    (systemCheck sampleSystemEnv sampleSystemChecks).status =
      worstStatus ((sampleSystemChecks.map (performSystemCheck sampleSystemEnv)).map
        (fun r => r.status)) ∧
    (systemCheck sampleSystemEnv sampleSystemChecks).metadataChecks =
      sampleSystemChecks.map (performSystemCheck sampleSystemEnv) := by
  exact C8_system_resource sampleSystemEnv sampleSystemChecks rfl

